import Mathlib

/-!
Verification of the lecho structured-logging adapter (zerolog wrapper for the
Echo web framework).

The Go source is shallowly embedded: zerolog levels are `Int` (Go `int8`),
gommon/log levels are `Nat` (Go `uint8`), the zerolog logger / context / event
values are explicit structures, and the request-logging middleware is a pure
function from a request state, a handler function and the ambient inputs
(global level, measured latency) to a result record that reports the returned
error, the events passed to `Send`, the number of centralized error-handler
invocations, the logger attached to the request context, and the final value
of the shared base logger (Go pointer aliasing between the per-request
`logger` variable and `config.Logger` is modelled explicitly).
-/

namespace Lecho

/-! ### zerolog levels (`int8` constants from the zerolog package) -/

def traceLevel : Int := -1
def debugLevel : Int := 0
def infoLevel : Int := 1
def warnLevel : Int := 2
def errorLevel : Int := 3
def fatalLevel : Int := 4
def panicLevel : Int := 5
def noLevel : Int := 6
def disabledLevel : Int := 7

/-! ### gommon/log levels (`uint8` constants; `DEBUG = iota + 1`) -/

def lvlDEBUG : Nat := 1
def lvlINFO : Nat := 2
def lvlWARN : Nat := 3
def lvlERROR : Nat := 4
def lvlOFF : Nat := 5

/-- The `echoLevels` map literal of levels.go as a partial lookup
(`none` models a key that is absent from the Go map). -/
def echoLevels (l : Nat) : Option Int :=
  if l = lvlDEBUG then some debugLevel
  else if l = lvlINFO then some infoLevel
  else if l = lvlWARN then some warnLevel
  else if l = lvlERROR then some errorLevel
  else if l = lvlOFF then some noLevel
  else none

/-- The `zeroLevels` map literal of levels.go as a partial lookup. -/
def zeroLevels (l : Int) : Option Nat :=
  if l = traceLevel then some lvlDEBUG
  else if l = debugLevel then some lvlDEBUG
  else if l = infoLevel then some lvlINFO
  else if l = warnLevel then some lvlWARN
  else if l = errorLevel then some lvlERROR
  else if l = noLevel then some lvlOFF
  else none

/-- levels.go `MatchEchoLevel`: a zerolog level and echo level for an echo
level; an unmapped input falls back to `(NoLevel, OFF)`. -/
def MatchEchoLevel (level : Nat) : Int × Nat :=
  match echoLevels level with
  | some zlvl => (zlvl, level)
  | none => (noLevel, lvlOFF)

/-- levels.go `MatchZeroLevel`: an echo level and zerolog level for a zerolog
level; an unmapped input falls back to `(OFF, NoLevel)`. -/
def MatchZeroLevel (level : Int) : Nat × Int :=
  match zeroLevels level with
  | some elvl => (elvl, level)
  | none => (lvlOFF, noLevel)

/-! ### zerolog value model

A structured field of a log record. `timestampE` and `callerE` stand for the
deferred timestamp / caller-location markers that `Context.Timestamp` and
`Context.Caller` install (their rendered contents are runtime ambient data
and are not modelled). -/

inductive Entry where
  | str (k v : String)
  | int (k : String) (v : Int)
  | dur (k : String) (v : Int)
  | errE (msg : String)
  | iface (k v : String)
  | timestampE
  | callerE (skip : Int)
  deriving Repr, DecidableEq

/-- A top-level field of an emitted event: either a plain field or a nested
sub-record (`zerolog.Dict`) attached under a key. -/
inductive TopEntry where
  | plain (e : Entry)
  | dict (k : String) (sub : List Entry)
  deriving Repr, DecidableEq

/-- `zerolog.Logger`: an output sink identity, an instance minimum level and
the accumulated context fields (plus attached hook identities). -/
structure Zerolog where
  sink : Nat
  level : Int
  fields : List Entry
  hooks : List Nat := []
  deriving Repr, DecidableEq

/-- `zerolog.New(w)`: a fresh engine logger writing to `w`, at `TraceLevel`,
with no context fields. -/
def zerologNew (w : Nat) : Zerolog :=
  { sink := w, level := traceLevel, fields := [] }

/-- `zerolog.Context`: the chainable field-accumulation view of a logger. -/
structure ZContext where
  l : Zerolog
  deriving Repr, DecidableEq

def Zerolog.with (l : Zerolog) : ZContext := ⟨l⟩

def ZContext.logger (c : ZContext) : Zerolog := c.l

/-- `Context.Str`. -/
def ZContext.str (c : ZContext) (k v : String) : ZContext :=
  ⟨{ c.l with fields := c.l.fields ++ [Entry.str k v] }⟩

/-- `Context.Interface` (values restricted to strings in this embedding). -/
def ZContext.iface (c : ZContext) (k v : String) : ZContext :=
  ⟨{ c.l with fields := c.l.fields ++ [Entry.iface k v] }⟩

/-- `Context.Timestamp`. -/
def ZContext.timestamp (c : ZContext) : ZContext :=
  ⟨{ c.l with fields := c.l.fields ++ [Entry.timestampE] }⟩

/-- `Context.Caller` / `Context.CallerWithSkipFrameCount`. -/
def ZContext.caller (c : ZContext) (skip : Int) : ZContext :=
  ⟨{ c.l with fields := c.l.fields ++ [Entry.callerE skip] }⟩

/-- `Logger.Level`: a copy of the logger with the instance level set. -/
def Zerolog.levelSet (l : Zerolog) (lvl : Int) : Zerolog :=
  { l with level := lvl }

/-- `Logger.GetLevel`: the instance minimum level. -/
def Zerolog.getLevel (l : Zerolog) : Int := l.level

/-- `Logger.Hook`. -/
def Zerolog.hook (l : Zerolog) (h : Nat) : Zerolog :=
  { l with hooks := l.hooks ++ [h] }

/-- A pending `zerolog.Event`. `enabled` models the nil-event short-circuit:
event creation yields a live event only when the event level passes both the
instance level and the process-wide global level `g` and is not `Disabled`
(zerolog `Logger.should`); field calls and `Send` on a nil event are no-ops
at the sink. -/
structure Event where
  enabled : Bool
  level : Int
  entries : List TopEntry
  msg : String := ""
  deriving Repr, DecidableEq

/-- `Logger.WithLevel(lvl)` under global level `g`: a new event at `lvl`,
seeded with the logger's context fields. -/
def Zerolog.withLevel (l : Zerolog) (g lvl : Int) : Event :=
  { enabled := decide (l.level ≤ lvl) && decide (g ≤ lvl) && decide (lvl ≠ disabledLevel),
    level := lvl, entries := l.fields.map TopEntry.plain }

/-- `Event.Str`. -/
def Event.Str (e : Event) (k v : String) : Event :=
  { e with entries := e.entries ++ [TopEntry.plain (Entry.str k v)] }

/-- `Event.Int`. -/
def Event.IntF (e : Event) (k : String) (v : Int) : Event :=
  { e with entries := e.entries ++ [TopEntry.plain (Entry.int k v)] }

/-- `Event.Dur`. -/
def Event.Dur (e : Event) (k : String) (v : Int) : Event :=
  { e with entries := e.entries ++ [TopEntry.plain (Entry.dur k v)] }

/-- `Event.Err`: the error field attached to an event. -/
def Event.errField (e : Event) (m : String) : Event :=
  { e with entries := e.entries ++ [TopEntry.plain (Entry.errE m)] }

/-- `Event.Dict(k, sub)`: a detached sub-record attached under `k`. -/
def Event.dictF (e : Event) (k : String) (sub : List Entry) : Event :=
  { e with entries := e.entries ++ [TopEntry.dict k sub] }

/-- A run of plain fields appended to an event (fluent `Str`/`Int`/`Dur`
calls collapsed into one list append). -/
def Event.addEntries (e : Event) (es : List Entry) : Event :=
  { e with entries := e.entries ++ es.map TopEntry.plain }

/-- `Logger.Err(err)` under global level `g`: an error-level event carrying
the error field when `err` is non-nil, an info-level event otherwise. -/
def Zerolog.err (l : Zerolog) (g : Int) (e : Option String) : Event :=
  match e with
  | some m => (l.withLevel g errorLevel).errField m
  | none => l.withLevel g infoLevel

/-! ### Options builder (src/unnamed/part_010) and the lecho Logger -/

/-- A configuration setter, as the tagged operations of options.go
(closures in Go; hooks are carried as opaque identities). -/
inductive Setter where
  | withLevel (level : Nat)
  | withField (name value : String)
  | withFields (fields : List (String × String))
  | withTimestamp
  | withCaller
  | withCallerSkip (skipFrameCount : Int)
  | withPrefixStr (p : String)
  | withHook (h : Nat)
  deriving Repr, DecidableEq

/-- The mutable options-builder state of options.go. -/
structure Options where
  context : ZContext
  level : Nat
  prefixStr : String
  deriving Repr, DecidableEq

/-- The effect of one setter on the builder state, line for line from the
setter bodies in src/unnamed/part_010 (`WithLevel` routes through
`MatchEchoLevel`; `WithPrefix` only writes the "prefix" context field). -/
def Setter.apply (s : Setter) (opts : Options) : Options :=
  match s with
  | .withLevel level =>
      let p := MatchEchoLevel level
      { opts with context := (opts.context.logger.levelSet p.1).with, level := p.2 }
  | .withField name value => { opts with context := opts.context.iface name value }
  | .withFields fields =>
      { opts with context := fields.foldl (fun c kv => c.iface kv.1 kv.2) opts.context }
  | .withTimestamp => { opts with context := opts.context.timestamp }
  | .withCaller => { opts with context := opts.context.caller 0 }
  | .withCallerSkip n => { opts with context := opts.context.caller n }
  | .withPrefixStr p => { opts with context := opts.context.str "prefix" p }
  | .withHook h => { opts with context := (opts.context.logger.hook h).with }

/-- Modelled from the spec: `GetEffectiveZerologLevel` is exercised by
levels_test.go and required by options_test.go (`TestGlobalLevel`), but its
definition is absent from src. Per the spec's Effective-Level Resolver
contract, it returns the stricter (numerically higher) of the engine
logger's own minimum severity and the process-wide global minimum severity
`g` (the global is passed explicitly in this embedding). -/
def GetEffectiveZerologLevel (log : Zerolog) (g : Int) : Int :=
  if log.level < g then g else log.level

/-- `newOptions` from src/unnamed/part_010, except that the starting host
level is derived from the spec-modelled `GetEffectiveZerologLevel` instead
of the raw `log.GetLevel()` (the current options.go, which the tests in
options_test.go `TestGlobalLevel` require, is absent from src): the builder
starts from the logger's context at that level and folds the setters in
order. -/
def newOptions (log : Zerolog) (setters : List Setter) (g : Int) : Options :=
  let elvl := (MatchZeroLevel (GetEffectiveZerologLevel log g)).1
  let opts : Options := { context := log.with, level := elvl, prefixStr := "" }
  setters.foldl (fun o s => s.apply o) opts

/-- `io.Writer` arguments of `New`, with the dynamic type information the Go
type switch inspects: either a plain byte sink or a `zerolog.Logger` value. -/
inductive Writer where
  | sink (id : Nat)
  | zlog (l : Zerolog)
  deriving Repr, DecidableEq

/-- The lecho `Logger` adapter struct. -/
structure Logger where
  log : Zerolog
  out : Option Writer
  level : Nat
  prefixStr : String
  setters : List Setter
  deriving Repr, DecidableEq

/-- `newLogger(log, setters)`: builds the options from the engine logger and
wraps the configured context. -/
def newLogger (log : Zerolog) (setters : List Setter) (g : Int) : Logger :=
  let opts := newOptions log setters g
  { log := opts.context.logger, out := none, level := opts.level,
    prefixStr := opts.prefixStr, setters := setters }

/-- `New(out, setters...)`: the type switch on the writer — a value that is
itself a `zerolog.Logger` is adopted as the engine, any other writer gets a
fresh engine via `zerolog.New`. -/
def New (out : Writer) (setters : List Setter) (g : Int) : Logger :=
  match out with
  | .zlog l => newLogger l setters g
  | .sink i => newLogger (zerologNew i) setters g

/-- `From(log, setters...)`: an adapter over an existing engine logger. -/
def From (log : Zerolog) (setters : List Setter) (g : Int) : Logger :=
  newLogger log setters g

/-- `Logger.Print`: a no-level event tagged with the literal "-" level
marker. -/
def Logger.Print (l : Logger) (g : Int) (m : String) : Event :=
  { (l.log.withLevel g noLevel).Str "level" "-" with msg := m }

/-! ### Request-logging middleware (src/middleware.go, current version) -/

/-- The echo request/response/context state visible to the middleware: the
inbound request (headers and the derived accessors the middleware reads),
the outbound response (headers, status, written size), the context key/value
store (`c.Set`/`c.Get`), and the logger the middleware placed on the request
context, if any. -/
structure EchoState where
  reqHeaders : List (String × String)
  resHeaders : List (String × String)
  resStatus : Int
  resSize : Int
  realIP : String
  host : String
  method : String
  uri : String
  userAgent : String
  referer : String
  store : List (String × String) := []
  ctxLogger : Option Zerolog := none
  deriving Repr, DecidableEq

/-- `Header.Get`: the first value under a key, `""` when absent. -/
def headerGet (hs : List (String × String)) (k : String) : String :=
  match hs.find? (fun p => p.1 == k) with
  | some p => p.2
  | none => ""

/-- A downstream handler: a pure transition on the echo state together with
the returned error (`none` = nil error). -/
def Handler : Type := EchoState → EchoState × Option String

/-- An enricher: `func(c echo.Context, logger zerolog.Context) zerolog.Context`. -/
def Enricher : Type := EchoState → ZContext → ZContext

def HeaderXRequestID : String := "X-Request-ID"
def HeaderContentLength : String := "Content-Length"

/-- The middleware `Config` struct; `none` / `""` / `0` are the Go nil/zero
values the `Middleware` constructor replaces with defaults. -/
structure Config where
  logger : Option Logger := none
  skipper : Option (EchoState → Bool) := none
  afterNextSkipper : Option (EchoState → Bool) := none
  beforeNext : Option (EchoState → EchoState) := none
  enricher : Option Enricher := none
  requestIDHeader : String := ""
  requestIDKey : String := ""
  nestKey : String := ""
  handleError : Bool := false
  requestLatencyLimit : Int := 0
  requestLatencyLevel : Int := 0

/-- The configuration after the defaulting done at the top of `Middleware`. -/
structure RConfig where
  logger : Logger
  skipper : EchoState → Bool
  afterNextSkipper : EchoState → Bool
  beforeNext : Option (EchoState → EchoState)
  enricher : Option Enricher
  requestIDHeader : String
  requestIDKey : String
  nestKey : String
  handleError : Bool
  requestLatencyLimit : Int
  requestLatencyLevel : Int

/-- `middleware.DefaultSkipper`: never skip. -/
def defaultSkipper : EchoState → Bool := fun _ => false

/-- The sink identity of `os.Stdout`. -/
def stdoutSink : Nat := 0

/-- The defaulting block at the top of `Middleware(config)`: nil skippers
become `DefaultSkipper`, a nil logger becomes `New(os.Stdout,
WithTimestamp())`, an empty request-ID key becomes "id" and an empty
request-ID header becomes `echo.HeaderXRequestID`. -/
def middlewareResolve (cfg : Config) (g : Int) : RConfig :=
  { logger := cfg.logger.getD (New (Writer.sink stdoutSink) [Setter.withTimestamp] g),
    skipper := cfg.skipper.getD defaultSkipper,
    afterNextSkipper := cfg.afterNextSkipper.getD defaultSkipper,
    beforeNext := cfg.beforeNext,
    enricher := cfg.enricher,
    requestIDHeader := if cfg.requestIDHeader = "" then HeaderXRequestID else cfg.requestIDHeader,
    requestIDKey := if cfg.requestIDKey = "" then "id" else cfg.requestIDKey,
    nestKey := cfg.nestKey,
    handleError := cfg.handleError,
    requestLatencyLimit := cfg.requestLatencyLimit,
    requestLatencyLevel := cfg.requestLatencyLevel }

/-- The request-ID lookup: the configured inbound request header, falling
back to the same header already set on the outbound response. -/
def requestId (cfg : RConfig) (c : EchoState) : String :=
  let id0 := headerGet c.reqHeaders cfg.requestIDHeader
  if id0 = "" then headerGet c.resHeaders cfg.requestIDHeader else id0

/-- The per-request logger derivation state. `base` is the value behind the
shared `config.Logger` pointer after the block ran, `logger` is the value
behind the local `logger` pointer, and `fresh` is the `cloned` flag: it
records whether `logger` still aliases `config.Logger` (`fresh = false`) or
points at a fresh allocation, so the embedding can direct the Go field
assignment `logger.log = ...` at the cell it really lands in. -/
structure Derived where
  base : Logger
  logger : Logger
  fresh : Bool

/-- The derivation block of the middleware body: attach the request-ID field
(cloning via `From`), then apply the pre-handler enricher, cloning first via
`From` when not already cloned, then assign the enriched engine logger
through the `logger` pointer — the assignment updates `base` too exactly
when `logger` still aliases it. -/
def deriveLogger (cfg : RConfig) (g : Int) (id : String) (c : EchoState) : Derived :=
  let st0 : Derived := { base := cfg.logger, logger := cfg.logger, fresh := false }
  let st1 : Derived :=
    if id ≠ "" then
      { st0 with logger := From st0.logger.log [Setter.withField cfg.requestIDKey id] g,
                 fresh := true }
    else st0
  match cfg.enricher with
  | none => st1
  | some enrich =>
      let st2 : Derived :=
        if st1.fresh then st1
        else { st1 with logger := From st1.logger.log [] g, fresh := true }
      let newLog := (enrich c st2.logger.log.with).logger
      { base := if st2.fresh then st2.base else { st2.base with log := newLog },
        logger := { st2.logger with log := newLog },
        fresh := st2.fresh }

/-- The derived per-request logger for a request (request-ID lookup plus the
derivation block). -/
def derivedOf (cfg : RConfig) (g : Int) (c0 : EchoState) : Derived :=
  deriveLogger cfg g (requestId cfg c0) c0

/-- The state passed to the downstream handler: the derived logger is
attached to the request context (`SetRequest` / `NewContext`), then the
`BeforeNext` hook runs, if configured. -/
def preState (cfg : RConfig) (g : Int) (c0 : EchoState) : EchoState :=
  let c1 : EchoState := { c0 with ctxLogger := some (derivedOf cfg g c0).logger.log }
  match cfg.beforeNext with
  | some f => f c1
  | none => c1

/-- The error returned by the downstream handler. -/
def handlerErr (cfg : RConfig) (next : Handler) (g : Int) (c0 : EchoState) : Option String :=
  (next (preState cfg g c0)).2

/-- The echo state after the handler and the conditional `c.Error(err)` call
(`errH` is the host framework's centralized error handler, invoked only when
`HandleError` is set and the handler errored). -/
def postState (cfg : RConfig) (next : Handler) (errH : EchoState → String → EchoState)
    (g : Int) (c0 : EchoState) : EchoState :=
  let r := next (preState cfg g c0)
  match r.2 with
  | some m => if cfg.handleError then errH r.1 m else r.1
  | none => r.1

/-- An abstract rendering of `time.Duration.String()` (the exact Go
formatting is not modelled; only that the field carries the latency). -/
def durString (d : Int) : String := toString d

/-- The standard request/response field set, in emission order, read from
the post-handler state `c` (`bytes_in` defaults to "0" on an absent or empty
content-length header, `bytes_out` is the string-formatted response size). -/
def stdEntries (c : EchoState) (latency : Int) : List Entry :=
  [ Entry.str "remote_ip" c.realIP,
    Entry.str "host" c.host,
    Entry.str "method" c.method,
    Entry.str "uri" c.uri,
    Entry.str "user_agent" c.userAgent,
    Entry.int "status" c.resStatus,
    Entry.str "referer" c.referer,
    Entry.dur "latency" latency,
    Entry.str "latency_human" (durString latency),
    Entry.str "bytes_in"
      (let cl := headerGet c.reqHeaders HeaderContentLength
       if cl = "" then "0" else cl),
    Entry.str "bytes_out" (toString c.resSize) ]

/-- Observable steps of one middleware pass, for ordering claims. -/
inductive Step where
  | next
  | afterEnrich
  | emit
  deriving Repr, DecidableEq

/-- Everything observable about one middleware pass: the returned error, how
often the centralized error handler ran, the events passed to `Send`
(`output` keeps only those that pass the level filter and so reach the
sink), the logger attached to the request context, whether the request-ID
lookup / pre-handler enrichment / stop-timestamp capture happened, the value
behind `config.Logger` after the pass, whether the context logger is a fresh
allocation, the final echo state and the step trace. -/
structure RunResult where
  ret : Option String
  errorHandlerCalls : Nat
  sends : List Event
  output : List Event
  ctxLogger : Option Zerolog
  idLookup : Bool
  enriched : Bool
  timed : Bool
  baseAfter : Logger
  derivedFresh : Bool
  finalState : EchoState
  trace : List Step

/-- The number of `c.Error(err)` invocations:
`if err = next(c); err != nil { if config.HandleError { c.Error(err) } }`. -/
def ehCallsOf (cfg : RConfig) (err : Option String) : Nat :=
  match err with
  | some _ => if cfg.handleError then 1 else 0
  | none => 0

/-- Severity selection for the main event (middleware.go lines 226-233): the
handler error wins, then a configured (non-zero) latency limit that the
measured latency exceeds, then the derived logger's own `GetLevel()`. -/
def mainEvtOf (cfg : RConfig) (d : Derived) (err : Option String)
    (g latency : Int) : Event :=
  match err with
  | some m => d.logger.log.err g (some m)
  | none =>
      if cfg.requestLatencyLimit ≠ 0 ∧ cfg.requestLatencyLimit < latency then
        d.logger.log.withLevel g cfg.requestLatencyLevel
      else
        d.logger.log.withLevel g d.logger.log.getLevel

/-- Field assembly (middleware.go lines 235-263): with a nest key the
standard fields go through a detached `zerolog.Dict` attached under the key,
otherwise `evt` aliases the main event and the fields land flat on it. -/
def sentEvt (cfg : RConfig) (d : Derived) (err : Option String) (c4 : EchoState)
    (g latency : Int) : Event :=
  if cfg.nestKey ≠ "" then
    (mainEvtOf cfg d err g latency).dictF cfg.nestKey (stdEntries c4 latency)
  else
    (mainEvtOf cfg d err g latency).addEntries (stdEntries c4 latency)

/-- One pass of the middleware handler from src/middleware.go (current
version): pre-handler skip, request-ID lookup, logger derivation, context
attachment, `BeforeNext`, the downstream handler, conditional error
propagation, post-handler skip, severity selection (error takes precedence,
then latency escalation, then the logger's own level), field assembly with
optional nesting, and a single `Send`. -/
def run (cfg : RConfig) (next : Handler) (errH : EchoState → String → EchoState)
    (g latency : Int) (c0 : EchoState) : RunResult :=
  if cfg.skipper c0 then
    { ret := (next c0).2, errorHandlerCalls := 0, sends := [], output := [],
      ctxLogger := none, idLookup := false, enriched := false, timed := false,
      baseAfter := cfg.logger, derivedFresh := false,
      finalState := (next c0).1, trace := [Step.next] }
  else
    let d := derivedOf cfg g c0
    let err := handlerErr cfg next g c0
    let c4 := postState cfg next errH g c0
    if cfg.afterNextSkipper c4 then
      { ret := err, errorHandlerCalls := ehCallsOf cfg err, sends := [], output := [],
        ctxLogger := some d.logger.log, idLookup := true,
        enriched := cfg.enricher.isSome, timed := false,
        baseAfter := d.base, derivedFresh := d.fresh,
        finalState := c4, trace := [Step.next] }
    else
      let mainEvt := sentEvt cfg d err c4 g latency
      { ret := err, errorHandlerCalls := ehCallsOf cfg err, sends := [mainEvt],
        output := if mainEvt.enabled then [mainEvt] else [],
        ctxLogger := some d.logger.log, idLookup := true,
        enriched := cfg.enricher.isSome, timed := true,
        baseAfter := d.base, derivedFresh := d.fresh,
        finalState := c4, trace := [Step.next, Step.emit] }

/-- Modelled from the spec: the post-handler enrichment block. When an
`AfterNextEnricher` is configured it receives the post-handler echo state
`c4` and the current field-chain context, and its output is adopted into the
per-request logger under the same copy-on-write discipline as the
pre-handler enricher (clone via `From` first when the local logger still
aliases the shared base). -/
def afterDerive (afterNextEnricher : Option Enricher) (d : Derived)
    (c4 : EchoState) (g : Int) : Derived :=
  match afterNextEnricher with
  | none => d
  | some f =>
      let dA : Derived :=
        if d.fresh then d
        else { d with logger := From d.logger.log [] g, fresh := true }
      let newLog := (f c4 dA.logger.log.with).logger
      { base := if dA.fresh then dA.base else { dA.base with log := newLog },
        logger := { dA.logger with log := newLog },
        fresh := dA.fresh }

/-- Modelled from the spec: the `AfterNextEnricher` hook is absent from
src/middleware.go (only middleware_test.go and the README exercise it).
Following the spec's POST_LOGGING → EMIT rule and the README ("invoked only
if `AfterNextSkipper` returns false"), this pass is `run` with one extra
block between the post-handler skip check and severity selection: the
post-handler enricher receives the post-handler echo state and the current
field-chain context, its output is adopted into the per-request logger under
the same copy-on-write discipline as the pre-handler enricher, and the
emitted event is built from the result. -/
def runWithAfterNextEnricher (cfg : RConfig) (afterNextEnricher : Option Enricher)
    (next : Handler) (errH : EchoState → String → EchoState)
    (g latency : Int) (c0 : EchoState) : RunResult :=
  if cfg.skipper c0 then
    { ret := (next c0).2, errorHandlerCalls := 0, sends := [], output := [],
      ctxLogger := none, idLookup := false, enriched := false, timed := false,
      baseAfter := cfg.logger, derivedFresh := false,
      finalState := (next c0).1, trace := [Step.next] }
  else
    let d := derivedOf cfg g c0
    let err := handlerErr cfg next g c0
    let c4 := postState cfg next errH g c0
    if cfg.afterNextSkipper c4 then
      { ret := err, errorHandlerCalls := ehCallsOf cfg err, sends := [], output := [],
        ctxLogger := some d.logger.log, idLookup := true,
        enriched := cfg.enricher.isSome, timed := false,
        baseAfter := d.base, derivedFresh := d.fresh,
        finalState := c4, trace := [Step.next] }
    else
      let d2 := afterDerive afterNextEnricher d c4 g
      let mainEvt := sentEvt cfg d2 err c4 g latency
      { ret := err, errorHandlerCalls := ehCallsOf cfg err, sends := [mainEvt],
        output := if mainEvt.enabled then [mainEvt] else [],
        ctxLogger := some d2.logger.log, idLookup := true,
        enriched := cfg.enricher.isSome, timed := true,
        baseAfter := d2.base, derivedFresh := d2.fresh,
        finalState := c4,
        trace := [Step.next] ++
          (if afterNextEnricher.isSome then [Step.afterEnrich] else []) ++ [Step.emit] }

/-! ### Concrete fixtures used by the witness theorems -/

def wState : EchoState :=
  { reqHeaders := [(HeaderXRequestID, "req-1"), (HeaderContentLength, "12")],
    resHeaders := [], resStatus := 200, resSize := 3,
    realIP := "127.0.0.1", host := "example.com", method := "GET", uri := "/x",
    userAgent := "ua", referer := "r" }

def wLogger : Logger := New (Writer.sink 0) [] traceLevel

def wCfg : RConfig :=
  { logger := wLogger,
    skipper := fun _ => false,
    afterNextSkipper := fun _ => false,
    beforeNext := none, enricher := none,
    requestIDHeader := HeaderXRequestID, requestIDKey := "id", nestKey := "",
    handleError := true, requestLatencyLimit := 0, requestLatencyLevel := warnLevel }

def wCfgSkip : RConfig := { wCfg with skipper := fun c => decide (c.uri = "/x") }

def wCfgPost : RConfig :=
  { wCfg with afterNextSkipper := fun c => decide (c.resStatus = 301) }

def wCfgNest : RConfig := { wCfg with nestKey := "http" }

def wNextErr : Handler := fun c => ({ c with resStatus := 500 }, some "boom")

def wNextOk : Handler := fun c =>
  ({ c with store := c.store ++ [("user_id", "123")] }, none)

def wNextRedirect : Handler := fun c => ({ c with resStatus := 301 }, none)

def wErrH : EchoState → String → EchoState := fun c _ => c

def wAfterEnricher : Enricher := fun c ctx => ctx.str "user_id" (headerGet c.store "user_id")

/-! ### Helper lemmas -/

theorem foldl_iface_sink (fs : List (String × String)) (c : ZContext) :
    (fs.foldl (fun c kv => c.iface kv.1 kv.2) c).l.sink = c.l.sink := by
  induction fs generalizing c with
  | nil => rfl
  | cons kv t ih => rw [List.foldl_cons, ih]; rfl

theorem setter_apply_sink (s : Setter) (o : Options) :
    (s.apply o).context.l.sink = o.context.l.sink := by
  cases s with
  | withFields fs => simpa [Setter.apply] using foldl_iface_sink fs o.context
  | _ => rfl

theorem foldl_apply_sink (ss : List Setter) (o : Options) :
    (ss.foldl (fun o s => s.apply o) o).context.l.sink = o.context.l.sink := by
  induction ss generalizing o with
  | nil => rfl
  | cons s t ih => rw [List.foldl_cons, ih, setter_apply_sink]

theorem run_skip_eq (cfg : RConfig) (next : Handler) (errH : EchoState → String → EchoState)
    (g latency : Int) (c0 : EchoState) (hs : cfg.skipper c0 = true) :
    run cfg next errH g latency c0 =
      { ret := (next c0).2, errorHandlerCalls := 0, sends := [], output := [],
        ctxLogger := none, idLookup := false, enriched := false, timed := false,
        baseAfter := cfg.logger, derivedFresh := false,
        finalState := (next c0).1, trace := [Step.next] } := by
  rw [run, hs]
  simp

theorem run_postskip_eq (cfg : RConfig) (next : Handler) (errH : EchoState → String → EchoState)
    (g latency : Int) (c0 : EchoState)
    (hs : cfg.skipper c0 = false)
    (ha : cfg.afterNextSkipper (postState cfg next errH g c0) = true) :
    run cfg next errH g latency c0 =
      { ret := handlerErr cfg next g c0,
        errorHandlerCalls := ehCallsOf cfg (handlerErr cfg next g c0),
        sends := [], output := [],
        ctxLogger := some (derivedOf cfg g c0).logger.log, idLookup := true,
        enriched := cfg.enricher.isSome, timed := false,
        baseAfter := (derivedOf cfg g c0).base,
        derivedFresh := (derivedOf cfg g c0).fresh,
        finalState := postState cfg next errH g c0, trace := [Step.next] } := by
  rw [run, hs]
  simp [ha]

theorem run_emit_eq (cfg : RConfig) (next : Handler) (errH : EchoState → String → EchoState)
    (g latency : Int) (c0 : EchoState)
    (hs : cfg.skipper c0 = false)
    (ha : cfg.afterNextSkipper (postState cfg next errH g c0) = false) :
    run cfg next errH g latency c0 =
      { ret := handlerErr cfg next g c0,
        errorHandlerCalls := ehCallsOf cfg (handlerErr cfg next g c0),
        sends := [sentEvt cfg (derivedOf cfg g c0) (handlerErr cfg next g c0)
                   (postState cfg next errH g c0) g latency],
        output := if (sentEvt cfg (derivedOf cfg g c0) (handlerErr cfg next g c0)
                       (postState cfg next errH g c0) g latency).enabled
                  then [sentEvt cfg (derivedOf cfg g c0) (handlerErr cfg next g c0)
                         (postState cfg next errH g c0) g latency] else [],
        ctxLogger := some (derivedOf cfg g c0).logger.log, idLookup := true,
        enriched := cfg.enricher.isSome, timed := true,
        baseAfter := (derivedOf cfg g c0).base,
        derivedFresh := (derivedOf cfg g c0).fresh,
        finalState := postState cfg next errH g c0,
        trace := [Step.next, Step.emit] } := by
  rw [run, hs]
  simp [ha]

theorem runA_emit_eq (cfg : RConfig) (af : Option Enricher) (next : Handler)
    (errH : EchoState → String → EchoState) (g latency : Int) (c0 : EchoState)
    (hs : cfg.skipper c0 = false)
    (ha : cfg.afterNextSkipper (postState cfg next errH g c0) = false) :
    runWithAfterNextEnricher cfg af next errH g latency c0 =
      { ret := handlerErr cfg next g c0,
        errorHandlerCalls := ehCallsOf cfg (handlerErr cfg next g c0),
        sends := [sentEvt cfg (afterDerive af (derivedOf cfg g c0) (postState cfg next errH g c0) g)
                   (handlerErr cfg next g c0) (postState cfg next errH g c0) g latency],
        output := if (sentEvt cfg (afterDerive af (derivedOf cfg g c0) (postState cfg next errH g c0) g)
                       (handlerErr cfg next g c0) (postState cfg next errH g c0) g latency).enabled
                  then [sentEvt cfg (afterDerive af (derivedOf cfg g c0) (postState cfg next errH g c0) g)
                         (handlerErr cfg next g c0) (postState cfg next errH g c0) g latency] else [],
        ctxLogger := some (afterDerive af (derivedOf cfg g c0) (postState cfg next errH g c0) g).logger.log,
        idLookup := true, enriched := cfg.enricher.isSome, timed := true,
        baseAfter := (afterDerive af (derivedOf cfg g c0) (postState cfg next errH g c0) g).base,
        derivedFresh := (afterDerive af (derivedOf cfg g c0) (postState cfg next errH g c0) g).fresh,
        finalState := postState cfg next errH g c0,
        trace := [Step.next] ++ (if af.isSome then [Step.afterEnrich] else []) ++ [Step.emit] } := by
  rw [runWithAfterNextEnricher, hs]
  simp [ha]

theorem ehCallsOf_eq (cfg : RConfig) (err : Option String) :
    ehCallsOf cfg err = if cfg.handleError ∧ err.isSome then 1 else 0 := by
  cases err <;> simp [ehCallsOf]

theorem sentEvt_level (cfg : RConfig) (d : Derived) (err : Option String)
    (c4 : EchoState) (g latency : Int) :
    (sentEvt cfg d err c4 g latency).level = (mainEvtOf cfg d err g latency).level := by
  unfold sentEvt
  split <;> rfl

theorem deriveLogger_base (cfg : RConfig) (g : Int) (id : String) (c : EchoState) :
    (deriveLogger cfg g id c).base = cfg.logger := by
  unfold deriveLogger
  rcases cfg.enricher with _ | f
  · by_cases hid : id ≠ "" <;> simp [hid]
  · by_cases hid : id ≠ "" <;> simp [hid]

theorem deriveLogger_fresh (cfg : RConfig) (g : Int) (id : String) (c : EchoState)
    (h : id ≠ "" ∨ cfg.enricher.isSome) :
    (deriveLogger cfg g id c).fresh = true := by
  unfold deriveLogger
  rcases henr : cfg.enricher with _ | f
  · rcases h with h | h
    · simp [h]
    · rw [henr] at h; simp at h
  · by_cases hid : id ≠ "" <;> simp [hid]

theorem afterDerive_log (f : Enricher) (d : Derived) (c4 : EchoState) (g : Int) :
    (afterDerive (some f) d c4 g).logger.log = (f c4 d.logger.log.with).logger := by
  unfold afterDerive
  by_cases h : d.fresh <;> simp [h, From, newLogger, newOptions, ZContext.logger, Zerolog.with]

theorem sentEvt_entries (cfg : RConfig) (d : Derived) (err : Option String)
    (c4 : EchoState) (g latency : Int) :
    (sentEvt cfg d err c4 g latency).entries =
      d.logger.log.fields.map TopEntry.plain
        ++ (match err with
            | some m => [TopEntry.plain (Entry.errE m)]
            | none => [])
        ++ (if cfg.nestKey ≠ "" then [TopEntry.dict cfg.nestKey (stdEntries c4 latency)]
            else (stdEntries c4 latency).map TopEntry.plain) := by
  unfold sentEvt mainEvtOf
  by_cases hn : cfg.nestKey ≠ "" <;> rcases err with _ | m
  · by_cases hl : cfg.requestLatencyLimit ≠ 0 ∧ cfg.requestLatencyLimit < latency <;>
      simp [hn, hl, Zerolog.withLevel, Event.dictF, Event.addEntries]
  · simp [hn, Zerolog.err, Zerolog.withLevel, Event.errField, Event.dictF, Event.addEntries]
  · by_cases hl : cfg.requestLatencyLimit ≠ 0 ∧ cfg.requestLatencyLimit < latency <;>
      simp [hn, hl, Zerolog.withLevel, Event.dictF, Event.addEntries]
  · simp [hn, Zerolog.err, Zerolog.withLevel, Event.errField, Event.dictF, Event.addEntries]

theorem mainEvtOf_level_err (cfg : RConfig) (d : Derived) (m : String) (g latency : Int) :
    (mainEvtOf cfg d (some m) g latency).level = errorLevel := rfl

/-! ### Claim theorems -/

/-- C1: for every request that reaches emission (neither skip fires), the
emitted event's severity follows the exact precedence: a handler error
forces error severity regardless of latency; otherwise a configured
(non-zero) latency limit that the measured latency exceeds selects the
escalation severity; otherwise — including for every latency when the limit
is zero — the per-request logger's own `GetLevel()` is used. -/
theorem severity_precedence
    (cfg : RConfig) (next : Handler) (errH : EchoState → String → EchoState)
    (g latency : Int) (c0 : EchoState)
    (hs : cfg.skipper c0 = false)
    (ha : cfg.afterNextSkipper (postState cfg next errH g c0) = false) :
    ((handlerErr cfg next g c0).isSome →
      (run cfg next errH g latency c0).sends.map Event.level = [errorLevel]) ∧
    (handlerErr cfg next g c0 = none → cfg.requestLatencyLimit ≠ 0 →
      cfg.requestLatencyLimit < latency →
      (run cfg next errH g latency c0).sends.map Event.level = [cfg.requestLatencyLevel]) ∧
    (handlerErr cfg next g c0 = none → cfg.requestLatencyLimit = 0 →
      (run cfg next errH g latency c0).sends.map Event.level
        = [(derivedOf cfg g c0).logger.log.level]) ∧
    (handlerErr cfg next g c0 = none → cfg.requestLatencyLimit ≠ 0 →
      latency ≤ cfg.requestLatencyLimit →
      (run cfg next errH g latency c0).sends.map Event.level
        = [(derivedOf cfg g c0).logger.log.level]) := by
  have hr := run_emit_eq cfg next errH g latency c0 hs ha
  refine ⟨?_, ?_, ?_, ?_⟩
  · intro hsome
    obtain ⟨m, hm⟩ := Option.isSome_iff_exists.mp hsome
    rw [hr]
    simp [sentEvt_level, hm, mainEvtOf, Zerolog.err, Event.errField, Zerolog.withLevel]
  · intro hnone hlim hlat
    rw [hr]
    simp [sentEvt_level, hnone, mainEvtOf, hlim, hlat, Zerolog.withLevel]
  · intro hnone hlim
    rw [hr]
    simp [sentEvt_level, hnone, mainEvtOf, hlim, Zerolog.withLevel, Zerolog.getLevel]
  · intro hnone hlim hlat
    have hnl : ¬ cfg.requestLatencyLimit < latency := not_lt.mpr hlat
    rw [hr]
    simp [sentEvt_level, hnone, mainEvtOf, hnl, Zerolog.withLevel, Zerolog.getLevel]

/-- Witness for C1: an erroring handler makes the single event error-level. -/
theorem severity_precedence_witness :
    (run wCfg wNextErr wErrH traceLevel 5 wState).sends.map Event.level = [errorLevel] :=
  (severity_precedence wCfg wNextErr wErrH traceLevel 5 wState rfl rfl).1 (by decide)

/-- C2: for every non-skipped request the middleware returns the handler's
error unchanged; the centralized error handler is invoked exactly once when
`HandleError` is set and the handler errored, and never otherwise; and
whenever the event is emitted the handler error is still logged locally as
the error field of that event. `HandleError` defaults to false. -/
theorem error_propagation
    (cfg : RConfig) (next : Handler) (errH : EchoState → String → EchoState)
    (g latency : Int) (c0 : EchoState)
    (hs : cfg.skipper c0 = false) :
    (run cfg next errH g latency c0).ret = handlerErr cfg next g c0 ∧
    (run cfg next errH g latency c0).errorHandlerCalls
        = (if cfg.handleError ∧ (handlerErr cfg next g c0).isSome then 1 else 0) ∧
    (∀ m, handlerErr cfg next g c0 = some m →
      cfg.afterNextSkipper (postState cfg next errH g c0) = false →
      ∃ e, (run cfg next errH g latency c0).sends = [e]
        ∧ TopEntry.plain (Entry.errE m) ∈ e.entries) ∧
    (∀ g2, (middlewareResolve {} g2).handleError = false) := by
  refine ⟨?_, ?_, ?_, fun _ => rfl⟩
  · by_cases ha : cfg.afterNextSkipper (postState cfg next errH g c0) = true
    · rw [run_postskip_eq cfg next errH g latency c0 hs ha]
    · rw [run_emit_eq cfg next errH g latency c0 hs (by simpa using ha)]
  · by_cases ha : cfg.afterNextSkipper (postState cfg next errH g c0) = true
    · rw [run_postskip_eq cfg next errH g latency c0 hs ha, ehCallsOf_eq]
    · rw [run_emit_eq cfg next errH g latency c0 hs (by simpa using ha), ehCallsOf_eq]
  · intro m hm ha
    rw [run_emit_eq cfg next errH g latency c0 hs ha]
    refine ⟨_, rfl, ?_⟩
    rw [sentEvt_entries, hm]
    simp

/-- Witness for C2: with `HandleError` set, an erroring handler's error is
returned, the centralized handler runs exactly once and the error field is
on the single emitted event. -/
theorem error_propagation_witness :
    (run wCfg wNextErr wErrH traceLevel 5 wState).ret = some "boom" ∧
    (run wCfg wNextErr wErrH traceLevel 5 wState).errorHandlerCalls = 1 ∧
    ∃ e, (run wCfg wNextErr wErrH traceLevel 5 wState).sends = [e]
      ∧ TopEntry.plain (Entry.errE "boom") ∈ e.entries := by
  have h := error_propagation wCfg wNextErr wErrH traceLevel 5 wState rfl
  refine ⟨?_, ?_, h.2.2.1 "boom" (by decide) rfl⟩
  · rw [h.1]; decide
  · rw [h.2.1]; decide

/-- C3: when the pre-handler skip predicate fires, the downstream handler is
invoked directly and its error and state changes are returned unmodified,
nothing is sent (so the sink sees zero bytes), no logger is attached to the
request context, and no request-ID lookup, enrichment or timing happens. -/
theorem pre_skip
    (cfg : RConfig) (next : Handler) (errH : EchoState → String → EchoState)
    (g latency : Int) (c0 : EchoState)
    (hs : cfg.skipper c0 = true) :
    (run cfg next errH g latency c0).ret = (next c0).2 ∧
    (run cfg next errH g latency c0).finalState = (next c0).1 ∧
    (run cfg next errH g latency c0).sends = [] ∧
    (run cfg next errH g latency c0).output = [] ∧
    (run cfg next errH g latency c0).ctxLogger = none ∧
    (run cfg next errH g latency c0).idLookup = false ∧
    (run cfg next errH g latency c0).enriched = false ∧
    (run cfg next errH g latency c0).timed = false := by
  rw [run_skip_eq cfg next errH g latency c0 hs]
  exact ⟨rfl, rfl, rfl, rfl, rfl, rfl, rfl, rfl⟩

/-- Witness for C3 on a request whose path the skipper matches. -/
theorem pre_skip_witness :
    (run wCfgSkip wNextOk wErrH traceLevel 5 wState).sends = [] ∧
    (run wCfgSkip wNextOk wErrH traceLevel 5 wState).ctxLogger = none :=
  ⟨(pre_skip wCfgSkip wNextOk wErrH traceLevel 5 wState (by decide)).2.2.1,
   (pre_skip wCfgSkip wNextOk wErrH traceLevel 5 wState (by decide)).2.2.2.2.1⟩

/-- C4: when the post-handler skip predicate fires on the post-handler
state, the handler's error is returned and nothing is sent, although the
pre-handler work (context attachment of the derived logger, request-ID
lookup) already happened. -/
theorem post_skip
    (cfg : RConfig) (next : Handler) (errH : EchoState → String → EchoState)
    (g latency : Int) (c0 : EchoState)
    (hs : cfg.skipper c0 = false)
    (ha : cfg.afterNextSkipper (postState cfg next errH g c0) = true) :
    (run cfg next errH g latency c0).ret = handlerErr cfg next g c0 ∧
    (run cfg next errH g latency c0).sends = [] ∧
    (run cfg next errH g latency c0).output = [] ∧
    (run cfg next errH g latency c0).ctxLogger = some (derivedOf cfg g c0).logger.log ∧
    (run cfg next errH g latency c0).idLookup = true := by
  rw [run_postskip_eq cfg next errH g latency c0 hs ha]
  exact ⟨rfl, rfl, rfl, rfl, rfl⟩

/-- Witness for C4: a handler that sets a redirect status trips the
post-handler skipper; nothing is emitted though the logger was attached. -/
theorem post_skip_witness :
    (run wCfgPost wNextRedirect wErrH traceLevel 5 wState).sends = [] ∧
    (run wCfgPost wNextRedirect wErrH traceLevel 5 wState).ctxLogger
      = some (derivedOf wCfgPost traceLevel wState).logger.log := by
  have h := post_skip wCfgPost wNextRedirect wErrH traceLevel 5 wState rfl (by decide)
  exact ⟨h.2.1, h.2.2.2.1⟩

/-- C6: per-request logger derivation is copy-on-write: the value behind the
shared `config.Logger` pointer is unchanged by every pass, and whenever a
request-ID field is attached or a pre-handler enricher is configured on a
non-skipped request, the per-request logger is a fresh allocation rather
than an alias of the shared base. -/
theorem copy_on_write
    (cfg : RConfig) (next : Handler) (errH : EchoState → String → EchoState)
    (g latency : Int) (c0 : EchoState) :
    (run cfg next errH g latency c0).baseAfter = cfg.logger ∧
    (cfg.skipper c0 = false →
      (requestId cfg c0 ≠ "" ∨ cfg.enricher.isSome) →
      (run cfg next errH g latency c0).derivedFresh = true) := by
  constructor
  · by_cases hs : cfg.skipper c0 = true
    · rw [run_skip_eq cfg next errH g latency c0 hs]
    · have hs' : cfg.skipper c0 = false := by simpa using hs
      by_cases ha : cfg.afterNextSkipper (postState cfg next errH g c0) = true
      · rw [run_postskip_eq cfg next errH g latency c0 hs' ha]
        exact deriveLogger_base cfg g (requestId cfg c0) c0
      · rw [run_emit_eq cfg next errH g latency c0 hs' (by simpa using ha)]
        exact deriveLogger_base cfg g (requestId cfg c0) c0
  · intro hs hor
    by_cases ha : cfg.afterNextSkipper (postState cfg next errH g c0) = true
    · rw [run_postskip_eq cfg next errH g latency c0 hs ha]
      exact deriveLogger_fresh cfg g (requestId cfg c0) c0 hor
    · rw [run_emit_eq cfg next errH g latency c0 hs (by simpa using ha)]
      exact deriveLogger_fresh cfg g (requestId cfg c0) c0 hor

/-- Witness for C6: with a request ID on the inbound request, the base
logger is untouched and the context logger is a fresh derivation. -/
theorem copy_on_write_witness :
    (run wCfg wNextOk wErrH traceLevel 5 wState).baseAfter = wCfg.logger ∧
    (run wCfg wNextOk wErrH traceLevel 5 wState).derivedFresh = true := by
  have h := copy_on_write wCfg wNextOk wErrH traceLevel 5 wState
  exact ⟨h.1, h.2 rfl (Or.inl (by decide))⟩

/-- C8: every request that reaches emission sends exactly one event; with an
empty nest key the standard request/response fields land flat on the
top-level event after the logger-context fields and the optional top-level
error field; with a non-empty nest key the standard fields form a detached
sub-record attached under that key while the error field stays top-level. -/
theorem emission_shape
    (cfg : RConfig) (next : Handler) (errH : EchoState → String → EchoState)
    (g latency : Int) (c0 : EchoState)
    (hs : cfg.skipper c0 = false)
    (ha : cfg.afterNextSkipper (postState cfg next errH g c0) = false) :
    (run cfg next errH g latency c0).sends.length = 1 ∧
    (cfg.nestKey = "" → ∃ e, (run cfg next errH g latency c0).sends = [e] ∧
        e.entries = (derivedOf cfg g c0).logger.log.fields.map TopEntry.plain
          ++ (match handlerErr cfg next g c0 with
              | some m => [TopEntry.plain (Entry.errE m)]
              | none => [])
          ++ (stdEntries (postState cfg next errH g c0) latency).map TopEntry.plain) ∧
    (cfg.nestKey ≠ "" → ∃ e, (run cfg next errH g latency c0).sends = [e] ∧
        e.entries = (derivedOf cfg g c0).logger.log.fields.map TopEntry.plain
          ++ (match handlerErr cfg next g c0 with
              | some m => [TopEntry.plain (Entry.errE m)]
              | none => [])
          ++ [TopEntry.dict cfg.nestKey
                (stdEntries (postState cfg next errH g c0) latency)]) := by
  have hr := run_emit_eq cfg next errH g latency c0 hs ha
  refine ⟨by rw [hr]; rfl, ?_, ?_⟩
  · intro hn
    refine ⟨_, by rw [hr], ?_⟩
    rw [sentEvt_entries]
    simp [hn]
  · intro hn
    refine ⟨_, by rw [hr], ?_⟩
    rw [sentEvt_entries]
    simp [hn]

/-- Witness for C8 with nest key "http": one event whose standard fields sit
in a sub-record under "http". -/
theorem emission_shape_witness :
    (run wCfgNest wNextOk wErrH traceLevel 5 wState).sends.length = 1 ∧
    ∃ e, (run wCfgNest wNextOk wErrH traceLevel 5 wState).sends = [e] ∧
      e.entries = (derivedOf wCfgNest traceLevel wState).logger.log.fields.map TopEntry.plain
        ++ (match handlerErr wCfgNest wNextOk traceLevel wState with
            | some m => [TopEntry.plain (Entry.errE m)]
            | none => [])
        ++ [TopEntry.dict wCfgNest.nestKey
              (stdEntries (postState wCfgNest wNextOk wErrH traceLevel wState) 5)] := by
  have h := emission_shape wCfgNest wNextOk wErrH traceLevel 5 wState rfl rfl
  exact ⟨h.1, h.2.2 (by decide)⟩

/-- C5: with a post-handler enricher configured, a pass that reaches
emission records the order handler-then-enricher-then-emit, and the emitted
event's field list starts with the fields of the context the enricher
returned — the enricher being applied to the post-handler echo state, so it
observes the handler's context writes and the final response status. -/
theorem after_next_enricher_runs_after_handler
    (cfg : RConfig) (f : Enricher) (next : Handler)
    (errH : EchoState → String → EchoState) (g latency : Int) (c0 : EchoState)
    (hs : cfg.skipper c0 = false)
    (ha : cfg.afterNextSkipper (postState cfg next errH g c0) = false) :
    (runWithAfterNextEnricher cfg (some f) next errH g latency c0).trace
        = [Step.next, Step.afterEnrich, Step.emit] ∧
    ∃ e rest, (runWithAfterNextEnricher cfg (some f) next errH g latency c0).sends = [e]
      ∧ e.entries
          = ((f (postState cfg next errH g c0)
                (derivedOf cfg g c0).logger.log.with).logger.fields.map TopEntry.plain)
            ++ rest := by
  have hr := runA_emit_eq cfg (some f) next errH g latency c0 hs ha
  constructor
  · rw [hr]; simp
  · have hent : (sentEvt cfg (afterDerive (some f) (derivedOf cfg g c0)
        (postState cfg next errH g c0) g)
        (handlerErr cfg next g c0) (postState cfg next errH g c0) g latency).entries
      = ((f (postState cfg next errH g c0)
            (derivedOf cfg g c0).logger.log.with).logger.fields.map TopEntry.plain)
        ++ ((match handlerErr cfg next g c0 with
             | some m => [TopEntry.plain (Entry.errE m)]
             | none => [])
            ++ (if cfg.nestKey ≠ "" then
                  [TopEntry.dict cfg.nestKey (stdEntries (postState cfg next errH g c0) latency)]
                else (stdEntries (postState cfg next errH g c0) latency).map TopEntry.plain)) := by
      rw [sentEvt_entries, afterDerive_log, List.append_assoc]
    exact ⟨_, _, by rw [hr], hent⟩

/-- Witness for C5: the enricher reads the "user_id" the handler wrote into
the request store; the trace is handler, enricher, emit. -/
theorem after_next_enricher_witness :
    (runWithAfterNextEnricher wCfg (some wAfterEnricher) wNextOk wErrH traceLevel 5 wState).trace
        = [Step.next, Step.afterEnrich, Step.emit] ∧
    ∃ e rest,
      (runWithAfterNextEnricher wCfg (some wAfterEnricher) wNextOk wErrH traceLevel 5 wState).sends
        = [e]
      ∧ e.entries
          = ((wAfterEnricher (postState wCfg wNextOk wErrH traceLevel wState)
                (derivedOf wCfg traceLevel wState).logger.log.with).logger.fields.map TopEntry.plain)
            ++ rest :=
  after_next_enricher_runs_after_handler wCfg wAfterEnricher wNextOk wErrH traceLevel 5 wState rfl rfl

/-- C9: the level-mapping functions are total and round-trip stable: for
every in-domain host level `x`, mapping to the engine level, back to the
host level and to the engine level again returns the same pair as the first
mapping, and every input outside either lookup table resolves to the
disabled/no-level pair (`NoLevel` paired with `OFF`). -/
theorem level_mapping_roundtrip :
    (∀ x : Nat, (echoLevels x).isSome →
        MatchEchoLevel (MatchZeroLevel (MatchEchoLevel x).1).1 = MatchEchoLevel x) ∧
    (∀ x : Nat, echoLevels x = none → MatchEchoLevel x = (noLevel, lvlOFF)) ∧
    (∀ z : Int, zeroLevels z = none → MatchZeroLevel z = (lvlOFF, noLevel)) := by
  refine ⟨?_, ?_, ?_⟩
  · intro x hx
    by_cases h1 : x = lvlDEBUG
    · subst h1; decide
    by_cases h2 : x = lvlINFO
    · subst h2; decide
    by_cases h3 : x = lvlWARN
    · subst h3; decide
    by_cases h4 : x = lvlERROR
    · subst h4; decide
    by_cases h5 : x = lvlOFF
    · subst h5; decide
    simp [echoLevels, h1, h2, h3, h4, h5] at hx
  · intro x hx
    simp [MatchEchoLevel, hx]
  · intro z hz
    simp [MatchZeroLevel, hz]

/-- Witness for C9 at concrete levels: INFO round-trips, the out-of-table
host value 9 and the unmapped engine level Fatal both resolve to the
disabled pair. -/
theorem level_mapping_roundtrip_witness :
    MatchEchoLevel (MatchZeroLevel (MatchEchoLevel lvlINFO).1).1 = MatchEchoLevel lvlINFO ∧
    MatchEchoLevel 9 = (noLevel, lvlOFF) ∧
    MatchZeroLevel fatalLevel = (lvlOFF, noLevel) :=
  ⟨level_mapping_roundtrip.1 lvlINFO (by decide),
   level_mapping_roundtrip.2.1 9 (by decide),
   level_mapping_roundtrip.2.2 fatalLevel (by decide)⟩

/-- C7: the effective-level resolution used when constructing an adapter
from an existing engine logger is the stricter (numerically higher) of the
instance level and the global level — it equals `max` of the two — the
adapter built by `From` reports the host-framework translation of that
floor, and the spec's three instances hold (global WARN / instance TRACE →
WARN, global DEBUG / instance ERROR → ERROR, equal INFO → INFO). -/
theorem effective_level_is_max (l : Zerolog) (g : Int) :
    GetEffectiveZerologLevel l g = max l.level g ∧
    (From l [] g).level = (MatchZeroLevel (max l.level g)).1 ∧
    (From (zerologNew 0) [] warnLevel).level = lvlWARN ∧
    (From ((zerologNew 0).levelSet errorLevel) [] debugLevel).level = lvlERROR ∧
    (From ((zerologNew 0).levelSet infoLevel) [] infoLevel).level = lvlINFO := by
  have hmax : GetEffectiveZerologLevel l g = max l.level g := by
    unfold GetEffectiveZerologLevel
    split <;> omega
  refine ⟨hmax, ?_, by decide, by decide, by decide⟩
  show (newLogger l [] g).level = _
  simp [newLogger, newOptions, hmax]

/-- C10: `New` inspects the writer's dynamic type: a `zerolog.Logger` value
is adopted as the engine (its attached fields and configured level are
preserved, and the result coincides with `From` under the same setters),
while any other writer gets a fresh engine bound to that sink (the sink
survives every setter list). -/
theorem new_writer_type_switch (l : Zerolog) (setters : List Setter) (i : Nat) (g : Int) :
    New (Writer.zlog l) setters g = From l setters g ∧
    (New (Writer.zlog l) [] g).log = l ∧
    New (Writer.sink i) setters g = From (zerologNew i) setters g ∧
    (New (Writer.sink i) setters g).log.sink = i ∧
    (New (Writer.sink i) [] g).log = zerologNew i := by
  refine ⟨rfl, rfl, rfl, ?_, rfl⟩
  show (newLogger (zerologNew i) setters g).log.sink = i
  simp only [newLogger, newOptions, ZContext.logger]
  rw [foldl_apply_sink]
  rfl

end Lecho
